import Mathlib

/-!
Verification of the incremental multi-stream change-detection poller
(`message_poller.py`, `message_poller_v2.py`, `message_poller_final.py`).

Modelling conventions:
* Message and user ids are modelled as `Nat`.  The Python code stores and
  compares ids as their decimal string forms (`str(message.id)`); the only
  comparison ever performed on them is equality, and equality of decimal
  strings of naturals coincides with equality of the naturals themselves.
* A Python `dict` is modelled as an association list with first-match lookup
  and in-place replacement on insert (Python dicts keep the position of an
  existing key and append new keys at the end).
* `user.get_messages(limit=10)` is an external call that may raise; its
  outcome is passed in as `Except Unit (List Msg)`: `.error` for a raised
  exception, `.ok page` for a returned page (newest first).
* For persistence, the file system is modelled as a map from paths to file
  contents, and `save_state` as the sequence of file operations it performs;
  a crash after `k` operations corresponds to applying only the first `k`.
-/

set_option autoImplicit false

namespace Poller

/-- An item of a stream, as used by the pollers: `message.id`,
`message.fromUser.id`, `message.text`, `message.created_at`. -/
structure Msg where
  id : Nat
  fromUserId : Nat
  text : String
  createdAt : String
  deriving DecidableEq, Repr

/-- The outcome of the external `get_messages` call: a raised exception or a
fetched page (newest first). -/
abbrev Fetch := Except Unit (List Msg)

/-- First-match lookup in an association list, as in a Python dict
(`d[k]`, `k in d`). -/
def lookup {α β : Type} [DecidableEq α] : List (α × β) → α → Option β
  | [], _ => none
  | (k, v) :: rest, key => if k = key then some v else lookup rest key

/-- Python dict assignment `d[k] = v`: replace the value in place if the key
exists, otherwise append the new pair at the end. -/
def insert {α β : Type} [DecidableEq α] : List (α × β) → α → β → List (α × β)
  | [], key, val => [(key, val)]
  | (k, v) :: rest, key, val =>
    if k = key then (k, val) :: rest else (k, v) :: insert rest key val

end Poller

namespace MessagePoller

open Poller

/-- The in-memory checkpoint store of `MessagePoller`:
`self.last_message_ids`, a dict from user id to last seen message id. -/
abbrev Store := List (Nat × Nat)

/-- The collection loop of `MessagePoller.check_user_messages` (lines
120-131): walk the fetched page newest-first, appending each message to
`new_messages` until one with id equal to the stored last seen id is met
(exclusive), or the page is exhausted. -/
def collectNew (lastSeen : Nat) : List Msg → List Msg
  | [] => []
  | m :: rest =>
    if m.id = lastSeen then [] else m :: collectNew lastSeen rest

/-- Embedding of `MessagePoller.check_user_messages` (message_poller.py,
lines 98-141) as a function of the store, the user id and the outcome of
`get_messages`.  Returns the reported new messages (chronological order)
and the updated store.  A raised fetch exception is caught by the
surrounding `try` and yields `([], store)`; an empty page returns early; a
page for an untracked user initialises the checkpoint to the page head and
reports nothing; otherwise the walk collects until
`last_message_ids[user_id]` is met, the checkpoint is set to the head id
(`latest_message_id` is always the page head, recorded before the break
test), and the collected slice is reversed. -/
def check_user_messages (store : Store) (userId : Nat) (fetch : Fetch) :
    List Msg × Store :=
  match fetch with
  | .error _ => ([], store)
  | .ok [] => ([], store)
  | .ok (m :: rest) =>
    match lookup store userId with
    | none => ([], insert store userId m.id)
    | some lastSeen =>
      ((collectNew lastSeen (m :: rest)).reverse, insert store userId m.id)

/-- One stream of a polling cycle: the user id produced by the enumeration
together with the outcome of that user's `get_messages` call. -/
abbrev StreamFetch := Nat × Fetch

/-- Observable events of one polling cycle: a stream was processed (with the
messages reported as new for it), or `save_state` was called. -/
inductive PollEvent where
  | processed (userId : Nat) (newMessages : List Msg)
  | saved
  deriving DecidableEq, Repr

/-- The per-user loop of `MessagePoller.poll_once` (lines 196-212): each
enumerated user is handed to `check_user_messages`, which catches its own
exceptions, so the loop always reaches every user; the store is threaded
through. -/
def processStreams (store : Store) : List StreamFetch → List PollEvent × Store
  | [] => ([], store)
  | (userId, fetch) :: rest =>
    let r := check_user_messages store userId fetch
    let t := processStreams r.2 rest
    (PollEvent.processed userId r.1 :: t.1, t.2)

/-- Embedding of `MessagePoller.poll_once` (lines 183-223): if the
enumeration produced no users the cycle returns early (lines 189-191) —
before the loop and before `save_state`; otherwise every user is processed
in order and `save_state` is called once at the end (line 220). -/
def poll_once (store : Store) (users : List StreamFetch) :
    List PollEvent × Store :=
  match users with
  | [] => ([], store)
  | u :: rest =>
    let t := processStreams store (u :: rest)
    (t.1 ++ [PollEvent.saved], t.2)

/-- A run of consecutive polling cycles (the `while True` loop of `run`,
lines 260-263): each cycle is `poll_once` on the store left by the previous
one.  Each cycle's enumeration-and-fetch outcome is given as input. -/
def runCycles (store : Store) : List (List StreamFetch) → Store
  | [] => store
  | c :: cs => runCycles (poll_once store c).2 cs

/-- Freshness of one fetched page relative to a store: if the stream has a
checkpoint and the page is non-empty, the page head's id is at least the
checkpointed id.  This is the "Reader returned no stale page" condition of
the specification, stated at the granularity the code can observe. -/
def headOk (store : Store) : StreamFetch → Bool
  | (userId, .ok (m :: _)) =>
    match lookup store userId with
    | some k => decide (k ≤ m.id)
    | none => true
  | _ => true

/-- Freshness of one whole cycle: every page fetched in the cycle is fresh
relative to the store at the start of the cycle. -/
def cycleFresh (store : Store) (users : List StreamFetch) : Bool :=
  users.all (headOk store)

/-- Freshness of a run: every cycle is fresh relative to the store it
starts from. -/
def freshRun : Store → List (List StreamFetch) → Bool
  | _, [] => true
  | store, c :: cs => cycleFresh store c && freshRun (poll_once store c).2 cs

/-- The path of the durable state file, `self.state_file` of
`MessagePoller`. -/
def state_file : String := "poller_state.json"

/-- File-system operations performed by the poller's persistence code.
`openTrunc p` is `open(p, "w")` (truncates an existing file), `writeAll p s`
writes the serialised mapping into `p`, `rename src dst` is an atomic
rename. -/
inductive FsOp where
  | openTrunc (path : String)
  | writeAll (path : String) (data : String)
  | rename (src dst : String)
  deriving DecidableEq, Repr

/-- Whether a file-system operation is a rename. -/
def isRename : FsOp → Bool
  | FsOp.rename _ _ => true
  | _ => false

/-- The serialised form of the checkpoint mapping, standing for the
`json.dump(self.last_message_ids, f)` output.  The exact text is irrelevant
to the claims about `save_state`; what matters is that it is a function of
the complete mapping and never the empty string (a JSON object is at least
`\x7b\x7d`). -/
def serialize_state (store : Store) : String :=
  "\x7b" ++
    String.intercalate ", "
      (store.map fun p =>
        "\x22" ++ toString p.1 ++ "\x22: \x22" ++ toString p.2 ++ "\x22") ++
  "\x7d"

/-- The sequence of file-system operations of `MessagePoller.save_state`
(lines 58-64): `open(self.state_file, "w")` — which truncates the file in
place — followed by `json.dump` of the whole mapping.  There is no
temporary file and no rename.  (`MessagePollerFinal.save_state`, lines
58-64 of message_poller_final.py, is identical.) -/
def save_state_ops (store : Store) : List FsOp :=
  [FsOp.openTrunc state_file, FsOp.writeAll state_file (serialize_state store)]

/-- A disk is a mapping from paths to file contents. -/
abbrev Disk := List (String × String)

/-- Remove a file from the disk. -/
def removeFile : Disk → String → Disk
  | [], _ => []
  | (p, c) :: rest, path =>
    if p = path then removeFile rest path else (p, c) :: removeFile rest path

/-- Effect of one file-system operation on the disk. -/
def applyOp (disk : Disk) : FsOp → Disk
  | FsOp.openTrunc p => insert disk p ""
  | FsOp.writeAll p s => insert disk p s
  | FsOp.rename src dst =>
    match lookup disk src with
    | none => disk
    | some c => insert (removeFile disk src) dst c

/-- Effect of a sequence of file-system operations; a crash after `k` of
them corresponds to folding over the first `k` operations only. -/
def applyOps (disk : Disk) (ops : List FsOp) : Disk :=
  ops.foldl applyOp disk

end MessagePoller

namespace MessagePollerV2

open Poller

/-- The in-memory state of `MessagePollerV2`: `self.last_message_info`, a
dict from user id to the `[message_id, text, created_at]` triple of the
last seen message. -/
abbrev Store := List (Nat × (Nat × String × String))

/-- Embedding of `MessagePollerV2.check_user_messages`
(message_poller_v2.py, lines 123-177).  Differences from V1: the state
value is the `[latest_id, latest_text, latest_created]` triple, and when
the page head id equals the stored id the function returns early without
touching the state.  The collection loop (lines 162-166) is the same
walk-until-match, so `MessagePoller.collectNew` embeds it. -/
def check_user_messages (store : Store) (userId : Nat) (fetch : Fetch) :
    List Msg × Store :=
  match fetch with
  | .error _ => ([], store)
  | .ok [] => ([], store)
  | .ok (m :: rest) =>
    match lookup store userId with
    | none => ([], insert store userId (m.id, m.text, m.createdAt))
    | some (lastId, _, _) =>
      if m.id = lastId then ([], store)
      else
        ((MessagePoller.collectNew lastId (m :: rest)).reverse,
         insert store userId (m.id, m.text, m.createdAt))

end MessagePollerV2

namespace MessagePollerFinal

open Poller

/-- The in-memory state of `MessagePollerFinal`, identical in shape to V2:
a dict from user id to the `[message_id, text, created_at]` triple. -/
abbrev Store := List (Nat × (Nat × String × String))

/-- The collection loop of `MessagePollerFinal.check_user_messages` (lines
147-154): walk newest-first until the stored id is met, but append only
messages whose `fromUser.id` differs from the authenticated user's id
(the `is_from_me` test); messages from the operator are skipped
silently. -/
def collectNewNotMine (authedId lastId : Nat) : List Msg → List Msg
  | [] => []
  | m :: rest =>
    if m.id = lastId then []
    else if m.fromUserId = authedId then collectNewNotMine authedId lastId rest
    else m :: collectNewNotMine authedId lastId rest

/-- Embedding of `MessagePollerFinal.check_user_messages`
(message_poller_final.py, lines 110-166), given the authenticated user's
id.  Structure is V2's, with the operator-author filter inside the
collection loop; the state is still updated to the page head's triple
whenever the head id differs from the stored id. -/
def check_user_messages (authedId : Nat) (store : Store) (userId : Nat)
    (fetch : Fetch) : List Msg × Store :=
  match fetch with
  | .error _ => ([], store)
  | .ok [] => ([], store)
  | .ok (m :: rest) =>
    match lookup store userId with
    | none => ([], insert store userId (m.id, m.text, m.createdAt))
    | some (lastId, _, _) =>
      if m.id = lastId then ([], store)
      else
        ((collectNewNotMine authedId lastId (m :: rest)).reverse,
         insert store userId (m.id, m.text, m.createdAt))

end MessagePollerFinal

namespace Poller

theorem lookup_insert_self {α β : Type} [DecidableEq α]
    (d : List (α × β)) (k : α) (v : β) :
    lookup (insert d k v) k = some v := by
  induction d with
  | nil => simp [insert, lookup]
  | cons p rest ih =>
    by_cases h : p.1 = k
    · simp [insert, lookup, h]
    · simp [insert, lookup, h, ih]

theorem lookup_insert_ne {α β : Type} [DecidableEq α]
    (d : List (α × β)) (k k' : α) (v : β) (h : k ≠ k') :
    lookup (insert d k v) k' = lookup d k' := by
  induction d with
  | nil => simp [insert, lookup, h]
  | cons p rest ih =>
    by_cases hp : p.1 = k
    · simp [insert, lookup, hp, h]
    · simp only [insert, if_neg hp]
      by_cases hp' : p.1 = k'
      · simp [lookup, hp']
      · simp [lookup, hp', ih]

end Poller

namespace MessagePoller

open Poller

/-- If no item of the page carries the last seen id, the walk exhausts the
page and collects all of it. -/
theorem collectNew_of_forall_ne (k : Nat) (page : List Msg)
    (h : ∀ x ∈ page, x.id ≠ k) : collectNew k page = page := by
  induction page with
  | nil => rfl
  | cons m rest ih =>
    have hm : m.id ≠ k := h m (by simp)
    simp only [collectNew, if_neg hm]
    rw [ih (fun x hx => h x (by simp [hx]))]

/-- If the page is a block of items none of which carries the last seen id,
followed by an item that does, the walk collects exactly the block. -/
theorem collectNew_append_of_match (k : Nat) (pre : List Msg) (mm : Msg)
    (rest : List Msg) (hpre : ∀ x ∈ pre, x.id ≠ k) (hmm : mm.id = k) :
    collectNew k (pre ++ mm :: rest) = pre := by
  induction pre with
  | nil => simp [collectNew, hmm]
  | cons p ps ih =>
    have hp : p.id ≠ k := hpre p (by simp)
    simp only [List.cons_append, collectNew, if_neg hp, List.append_eq]
    rw [ih (fun x hx => hpre x (by simp [hx]))]

/-- `check_user_messages` touches only the checkpoint entry of the stream
it was called for. -/
theorem check_lookup_other (store : Store) (u : Nat) (f : Fetch) (uid : Nat)
    (h : u ≠ uid) :
    lookup (check_user_messages store u f).2 uid = lookup store uid := by
  match f with
  | .error _ => rfl
  | .ok [] => rfl
  | .ok (m :: rest) =>
    cases hl : lookup store u with
    | none =>
      simp [check_user_messages, hl, lookup_insert_ne store u uid _ h]
    | some k =>
      simp [check_user_messages, hl, lookup_insert_ne store u uid _ h]

/-- Processing a concatenation of stream lists processes the first part and
then the second from the store the first part left. -/
theorem processStreams_append (store : Store) (xs ys : List StreamFetch) :
    processStreams store (xs ++ ys) =
      ((processStreams store xs).1 ++
         (processStreams (processStreams store xs).2 ys).1,
       (processStreams (processStreams store xs).2 ys).2) := by
  induction xs generalizing store with
  | nil => simp [processStreams]
  | cons e rest ih =>
    obtain ⟨u, f⟩ := e
    simp [processStreams, ih]

/-- On a non-empty enumeration, a cycle is the stream loop followed by one
`save_state` call. -/
theorem poll_once_eq_of_ne_nil (store : Store) (users : List StreamFetch)
    (h : users ≠ []) :
    poll_once store users =
      ((processStreams store users).1 ++ [PollEvent.saved],
       (processStreams store users).2) := by
  cases users with
  | nil => exact absurd rfl h
  | cons u rest => rfl

/-- The stream loop itself never calls `save_state`. -/
theorem saved_not_mem_processStreams (users : List StreamFetch) (store : Store) :
    PollEvent.saved ∉ (processStreams store users).1 := by
  induction users generalizing store with
  | nil => simp [processStreams]
  | cons e rest ih =>
    obtain ⟨u, f⟩ := e
    simp only [processStreams, List.mem_cons, not_or]
    exact ⟨by simp, ih _⟩

/-- Monotonicity of the stream loop on one stream's checkpoint: if the
stream has checkpoint `k0` at the start of the cycle and every page fetched
in the cycle is fresh relative to the start-of-cycle store, the checkpoint
stays set and never drops below `k0`. -/
theorem processStreams_lookup_le (uid k0 : Nat) (store0 : Store)
    (h0 : lookup store0 uid = some k0) (users : List StreamFetch) :
    ∀ (store : Store) (j : Nat),
      lookup store uid = some j → k0 ≤ j →
      users.all (headOk store0) = true →
      ∃ j', lookup (processStreams store users).2 uid = some j' ∧ k0 ≤ j' := by
  induction users with
  | nil => exact fun store j hj hkj _ => ⟨j, hj, hkj⟩
  | cons e rest ih =>
    intro store j hj hkj hall
    obtain ⟨u, f⟩ := e
    rw [List.all_cons, Bool.and_eq_true] at hall
    obtain ⟨hhead, hrest⟩ := hall
    simp only [processStreams]
    by_cases hu : u = uid
    · subst hu
      match f with
      | .error _ =>
        exact ih store j (by simpa [check_user_messages] using hj) hkj hrest
      | .ok [] =>
        exact ih store j (by simpa [check_user_messages] using hj) hkj hrest
      | .ok (m :: ms) =>
        have hk0m : k0 ≤ m.id := by
          simp only [headOk, h0] at hhead
          exact of_decide_eq_true hhead
        refine ih (check_user_messages store u (.ok (m :: ms))).2 m.id ?_ hk0m hrest
        simp [check_user_messages, hj, lookup_insert_self]
    · refine ih (check_user_messages store u f).2 j ?_ hkj hrest
      rw [check_lookup_other store u f uid hu]
      exact hj

/-- Monotonicity of one whole cycle on one stream's checkpoint, under the
cycle-freshness condition. -/
theorem poll_once_lookup_le (store : Store) (users : List StreamFetch)
    (uid k : Nat) (hk : lookup store uid = some k)
    (hfresh : cycleFresh store users = true) :
    ∃ k', lookup (poll_once store users).2 uid = some k' ∧ k ≤ k' := by
  match users with
  | [] => exact ⟨k, hk, le_refl k⟩
  | u :: rest =>
    have h := processStreams_lookup_le uid k store hk (u :: rest) store k hk
      (le_refl k) hfresh
    simpa [poll_once] using h

end MessagePoller

namespace MessagePollerFinal

open Poller

/-- The operator-filtering walk is the plain walk of `MessagePoller`
followed by dropping the operator's own messages. -/
theorem collectNewNotMine_eq_filter (authedId lastId : Nat)
    (page : List Msg) :
    collectNewNotMine authedId lastId page =
      (MessagePoller.collectNew lastId page).filter
        (fun x => x.fromUserId != authedId) := by
  induction page with
  | nil => rfl
  | cons m rest ih =>
    by_cases hid : m.id = lastId
    · simp [collectNewNotMine, MessagePoller.collectNew, hid]
    · by_cases hme : m.fromUserId = authedId
      · simp [collectNewNotMine, MessagePoller.collectNew, hid, hme,
          List.filter, ih]
      · simp [collectNewNotMine, MessagePoller.collectNew, hid, hme,
          List.filter, ih]

end MessagePollerFinal

namespace MessagePoller

open Poller

/-- C3: with checkpoint `k` and a newest-first page `[n, n-1, ..., k+1]`
followed by an item of id `k` (and anything older), `check_user_messages`
returns exactly the items of ids `k+1` through `n` in ascending id order
and updates the checkpoint to the page head `n`. -/
theorem C3_exact_delta (store : Store) (uid k n : Nat)
    (newPart : List Msg) (mm : Msg) (rest : List Msg)
    (hlk : lookup store uid = some k)
    (hkn : k < n)
    (hids : newPart.map Msg.id = (List.range' (k + 1) (n - k)).reverse)
    (hmm : mm.id = k) :
    check_user_messages store uid (.ok (newPart ++ mm :: rest)) =
      (newPart.reverse, insert store uid n) ∧
    newPart.reverse.map Msg.id = List.range' (k + 1) (n - k) := by
  have hconcat : List.range' (k + 1) (n - k) =
      List.range' (k + 1) (n - k - 1) ++ [n] := by
    have hlen : n - k = (n - k - 1) + 1 := by omega
    rw [hlen, List.range'_concat]
    have : k + 1 + 1 * (n - k - 1) = n := by omega
    rw [this]
    simp
  have hmap : newPart.map Msg.id =
      n :: (List.range' (k + 1) (n - k - 1)).reverse := by
    rw [hids, hconcat, List.reverse_append]
    simp
  have hne : ∀ x ∈ newPart, x.id ≠ k := by
    intro x hx
    have hmem : x.id ∈ newPart.map Msg.id := List.mem_map_of_mem _ hx
    rw [hids, List.mem_reverse] at hmem
    have := (List.mem_range'_1.mp hmem).1
    omega
  cases newPart with
  | nil => simp at hmap
  | cons p0 ps =>
    rw [List.map_cons, List.cons.injEq] at hmap
    obtain ⟨hp0, _⟩ := hmap
    have hcoll : collectNew k ((p0 :: ps) ++ mm :: rest) = p0 :: ps :=
      collectNew_append_of_match k (p0 :: ps) mm rest hne hmm
    constructor
    · simp only [List.cons_append] at hcoll ⊢
      simp only [check_user_messages, hlk]
      rw [hcoll, hp0]
    · rw [List.map_reverse, hids, List.reverse_reverse]

/-- C3 witness: the specification's concrete scenario — checkpoint 100,
page `[103, 102, 101, 100, 99]` — yields new items `[101, 102, 103]` and
checkpoint 103. -/
theorem C3_exact_delta_witness :
    check_user_messages [(1, 100)] 1
        (.ok ([⟨103, 5, "a", "t3"⟩, ⟨102, 5, "b", "t2"⟩, ⟨101, 5, "c", "t1"⟩] ++
              ⟨100, 5, "d", "t0"⟩ :: [⟨99, 5, "e", "t9"⟩])) =
      ([⟨103, 5, "a", "t3"⟩, ⟨102, 5, "b", "t2"⟩,
        (⟨101, 5, "c", "t1"⟩ : Msg)].reverse, insert [(1, 100)] 1 103) ∧
    ([⟨103, 5, "a", "t3"⟩, ⟨102, 5, "b", "t2"⟩,
      (⟨101, 5, "c", "t1"⟩ : Msg)].reverse.map Msg.id = List.range' 101 3) :=
  C3_exact_delta [(1, 100)] 1 100 103
    [⟨103, 5, "a", "t3"⟩, ⟨102, 5, "b", "t2"⟩, ⟨101, 5, "c", "t1"⟩]
    ⟨100, 5, "d", "t0"⟩ [⟨99, 5, "e", "t9"⟩]
    rfl (by decide) (by decide) rfl

/-- C4: for a stream with no checkpoint, any non-empty page reports no new
items and the checkpoint is initialised to the page head's id. -/
theorem C4_bootstrap (store : Store) (uid : Nat) (m : Msg) (rest : List Msg)
    (h : lookup store uid = none) :
    check_user_messages store uid (.ok (m :: rest)) =
      ([], insert store uid m.id) := by
  simp [check_user_messages, h]

/-- C4 witness: an untracked stream with page head id 50 reports nothing
and gets checkpoint 50. -/
theorem C4_bootstrap_witness :
    check_user_messages [] 1
        (.ok [⟨50, 2, "hello", "t"⟩, ⟨49, 2, "hi", "s"⟩]) = ([], [(1, 50)]) :=
  C4_bootstrap [] 1 ⟨50, 2, "hello", "t"⟩ [⟨49, 2, "hi", "s"⟩] rfl

/-- C5: with checkpoint `k`, a non-empty page whose head id differs from
`k` and which contains no item of id `k` is reported entirely as new (in
chronological order) and the checkpoint becomes the page head's id. -/
theorem C5_exhausted_without_match (store : Store) (uid k : Nat)
    (m : Msg) (rest : List Msg)
    (hlk : lookup store uid = some k)
    (_hhead : m.id ≠ k)
    (hnot : ∀ x ∈ m :: rest, x.id ≠ k) :
    check_user_messages store uid (.ok (m :: rest)) =
      ((m :: rest).reverse, insert store uid m.id) := by
  simp only [check_user_messages, hlk]
  rw [collectNew_of_forall_ne k (m :: rest) hnot]

/-- C5 witness: checkpoint 100 and page `[103, 102]` (no id 100 present)
reports both items, oldest first, and moves the checkpoint to 103. -/
theorem C5_exhausted_without_match_witness :
    check_user_messages [(1, 100)] 1
        (.ok [⟨103, 5, "a", "t3"⟩, ⟨102, 5, "b", "t2"⟩]) =
      ([⟨103, 5, "a", "t3"⟩, (⟨102, 5, "b", "t2"⟩ : Msg)].reverse,
       [(1, 103)]) :=
  C5_exhausted_without_match [(1, 100)] 1 100
    ⟨103, 5, "a", "t3"⟩ [⟨102, 5, "b", "t2"⟩]
    rfl (by decide) (by decide)

/-- C6: a stream whose fetch raises does not abort the cycle: the streams
enumerated after it are processed exactly as they would have been, the
erroring stream reports no new items, and the cycle still ends with its
`save_state` call. -/
theorem C6_partial_failure_isolation (store : Store) (pre : List StreamFetch)
    (uid : Nat) (post : List StreamFetch) :
    poll_once store (pre ++ (uid, Except.error ()) :: post) =
      ((processStreams store pre).1 ++
         PollEvent.processed uid [] ::
           ((processStreams (processStreams store pre).2 post).1 ++
             [PollEvent.saved]),
       (processStreams (processStreams store pre).2 post).2) := by
  rw [poll_once_eq_of_ne_nil _ _ (by simp), processStreams_append]
  simp [processStreams, check_user_messages]

/-- C10: a raised `get_messages` is caught inside `check_user_messages`,
which then returns no new items and leaves the in-memory checkpoint state
(of V1 and of V2 alike) exactly as it was. -/
theorem C10_fetch_error_is_noop (store : Store)
    (storeV2 : MessagePollerV2.Store) (uid : Nat) (e : Unit) :
    check_user_messages store uid (Except.error e) = ([], store) ∧
    MessagePollerV2.check_user_messages storeV2 uid (Except.error e) =
      ([], storeV2) :=
  ⟨rfl, rfl⟩

/-- C1 counterexample: with checkpoint 100 and the stale page `[id 99]`
(head id 99 < 100), both V1 and V2 `check_user_messages` report a
non-empty new-item list and change the checkpoint entry — not the empty
result with an untouched checkpoint the claim states. -/
theorem C1_stale_page_counterexample :
    (check_user_messages [(1, 100)] 1 (.ok [⟨99, 5, "x", "t"⟩])).1 ≠ [] ∧
    (check_user_messages [(1, 100)] 1 (.ok [⟨99, 5, "x", "t"⟩])).2 ≠
      [(1, 100)] ∧
    (MessagePollerV2.check_user_messages [(1, (100, "d", "t0"))] 1
        (.ok [⟨99, 5, "x", "t"⟩])).1 ≠ [] ∧
    (MessagePollerV2.check_user_messages [(1, (100, "d", "t0"))] 1
        (.ok [⟨99, 5, "x", "t"⟩])).2 ≠ [(1, (100, "d", "t0"))] := by
  decide

/-- C1 (amended): there is no staleness guard — on a page every item of
which is older than the checkpoint `k` (in particular the head), the walk
exhausts the page, so `check_user_messages` reports the whole page as new
(chronological order) and regresses the checkpoint to the page head's
id, which is smaller than `k`. -/
theorem C1_stale_page_emits_page_and_regresses (store : Store)
    (uid k : Nat) (m : Msg) (rest : List Msg)
    (hlk : lookup store uid = some k)
    (hstale : ∀ x ∈ m :: rest, x.id < k) :
    check_user_messages store uid (.ok (m :: rest)) =
      ((m :: rest).reverse, insert store uid m.id) ∧ m.id < k := by
  refine ⟨?_, hstale m (by simp)⟩
  simp only [check_user_messages, hlk]
  rw [collectNew_of_forall_ne k (m :: rest)
    (fun x hx => Nat.ne_of_lt (hstale x hx))]

/-- C1 amended witness: checkpoint 100, stale page `[99, 98]` — the whole
page is emitted and the checkpoint regresses to 99. -/
theorem C1_stale_page_emits_page_and_regresses_witness :
    (check_user_messages [(1, 100)] 1
        (.ok [⟨99, 5, "x", "t"⟩, ⟨98, 5, "y", "s"⟩]) =
      ([⟨99, 5, "x", "t"⟩, (⟨98, 5, "y", "s"⟩ : Msg)].reverse, [(1, 99)])) ∧
    99 < 100 :=
  C1_stale_page_emits_page_and_regresses [(1, 100)] 1 100
    ⟨99, 5, "x", "t"⟩ [⟨98, 5, "y", "s"⟩] rfl (by decide)

/-- C2 counterexample: two cycles whose pages are each correctly ordered
(newest first — they are singletons): the first sets the checkpoint of
stream 1 to 100, the second (a stale read headed by id 99) drags it back
down to 99, so `lastSeenId` is not non-decreasing. -/
theorem C2_regression_counterexample :
    lookup (runCycles [] [[(1, Except.ok [⟨100, 5, "a", "t1"⟩])]]) 1 =
      some 100 ∧
    lookup (runCycles []
        [[(1, Except.ok [⟨100, 5, "a", "t1"⟩])],
         [(1, Except.ok [⟨99, 5, "b", "t2"⟩])]]) 1 = some 99 ∧
    99 < 100 := by
  decide

/-- C2 (amended): `lastSeenId`, once set, is non-decreasing over any run of
cycles provided additionally that no fetched page is stale: every
non-empty page fetched for a checkpointed stream has its head id at least
that stream's checkpoint at the start of the page's cycle
(`freshRun`). -/
theorem C2_no_regression_of_fresh_run (store : Store)
    (cycles : List (List StreamFetch)) (uid k : Nat)
    (hfresh : freshRun store cycles = true)
    (hk : lookup store uid = some k) :
    ∃ k', lookup (runCycles store cycles) uid = some k' ∧ k ≤ k' := by
  induction cycles generalizing store k with
  | nil => exact ⟨k, hk, le_refl k⟩
  | cons c cs ih =>
    rw [freshRun, Bool.and_eq_true] at hfresh
    obtain ⟨hc, hcs⟩ := hfresh
    obtain ⟨k1, hk1, hkk1⟩ := poll_once_lookup_le store c uid k hk hc
    obtain ⟨k', hk', hk1k'⟩ := ih (poll_once store c).2 k1 hcs hk1
    exact ⟨k', hk', le_trans hkk1 hk1k'⟩

/-- C2 amended witness: checkpoint 100, one fresh cycle with page head
105 — the checkpoint stays set and does not decrease. -/
theorem C2_no_regression_of_fresh_run_witness :
    ∃ k', lookup (runCycles [(1, 100)]
        [[(1, Except.ok [⟨105, 5, "a", "t"⟩])]]) 1 = some k' ∧ 100 ≤ k' :=
  C2_no_regression_of_fresh_run [(1, 100)]
    [[(1, Except.ok [⟨105, 5, "a", "t"⟩])]] 1 100 (by decide) rfl

/-- C7 counterexample: a cycle whose enumeration yields no streams returns
early and performs no `save_state` call at all, contradicting "flushed
exactly once per cycle whatever the enumeration result". -/
theorem C7_no_flush_on_empty_enumeration :
    (poll_once [] []).1.count PollEvent.saved = 0 ∧
    (poll_once [] []).1.count PollEvent.saved ≠ 1 := by
  decide

/-- C7 (amended): `save_state` is called exactly once per cycle when the
enumeration yields at least one stream — regardless of new items or
per-stream errors — and not at all when it yields none (the cycle returns
early before the flush). -/
theorem C7_flush_once_iff_streams_nonempty (store : Store)
    (users : List StreamFetch) :
    (poll_once store users).1.count PollEvent.saved =
      if users.isEmpty then 0 else 1 := by
  cases users with
  | nil => simp [poll_once]
  | cons u rest =>
    rw [poll_once_eq_of_ne_nil _ _ (by simp)]
    have hnm := saved_not_mem_processStreams (u :: rest) store
    simp [List.count_append, List.count_eq_zero.mpr hnm]

/-- C8 counterexample: `save_state` performs no rename at all (so it is not
"write to a temporary file and rename"), and a crash right after its
`open(..., "w")` truncation leaves the state file empty — a content that
is neither the old mapping nor the new one. -/
theorem C8_save_not_atomic_counterexample :
    (save_state_ops [(1, 103)]).all (fun op => ! isRename op) = true ∧
    lookup
        (applyOps [(state_file, serialize_state [(1, 100)])]
          ((save_state_ops [(1, 103)]).take 1))
        state_file = some "" ∧
    "" ≠ serialize_state [(1, 100)] ∧
    "" ≠ serialize_state [(1, 103)] := by
  decide

/-- C8 (amended): `save_state` writes the serialised mapping directly into
the state file in place — truncating `open` followed by the dump, with no
temporary file and no rename.  A completed save leaves exactly the new
mapping, but between the truncation and the write the file is empty, so a
crash there loses the old mapping without having written the new one. -/
theorem C8_save_writes_in_place (store : Store) (disk : Disk) :
    lookup (applyOps disk (save_state_ops store)) state_file =
      some (serialize_state store) ∧
    (save_state_ops store).all (fun op => ! isRename op) = true ∧
    lookup (applyOps disk ((save_state_ops store).take 1)) state_file =
      some "" := by
  refine ⟨?_, rfl, ?_⟩
  · simp [applyOps, save_state_ops, applyOp, lookup_insert_self]
  · simp [applyOps, save_state_ops, applyOp, lookup_insert_self]

end MessagePoller

namespace MessagePollerFinal

open Poller

/-- C9: in `MessagePollerFinal`, with checkpoint id `k` and a page whose
head id differs from `k`, the reported new items are the walked delta with
every message authored by the operator (`fromUser.id` equal to the
authenticated user's id) silently removed, while the checkpoint entry is
still advanced to the page head's triple past the omitted messages. -/
theorem C9_operator_messages_omitted (authedId : Nat) (store : Store)
    (uid k : Nat) (t c : String) (m : Msg) (rest : List Msg)
    (hlk : lookup store uid = some (k, t, c))
    (hne : m.id ≠ k) :
    check_user_messages authedId store uid (.ok (m :: rest)) =
      (((MessagePoller.collectNew k (m :: rest)).filter
          (fun x => x.fromUserId != authedId)).reverse,
       insert store uid (m.id, m.text, m.createdAt)) ∧
    ∀ x ∈ (check_user_messages authedId store uid (.ok (m :: rest))).1,
      x.fromUserId ≠ authedId := by
  have hmain : check_user_messages authedId store uid (.ok (m :: rest)) =
      (((MessagePoller.collectNew k (m :: rest)).filter
          (fun x => x.fromUserId != authedId)).reverse,
       insert store uid (m.id, m.text, m.createdAt)) := by
    simp only [check_user_messages, hlk, if_neg hne]
    rw [collectNewNotMine_eq_filter]
  refine ⟨hmain, ?_⟩
  intro x hx
  rw [hmain] at hx
  simp only [List.mem_reverse, List.mem_filter, bne_iff_ne] at hx
  exact hx.2

/-- C9 witness: operator id 7, checkpoint 100, page
`[103 (operator), 102 (counterpart), 101 (operator), 100, 99]` — only item
102 is reported, and the checkpoint advances to id 103. -/
theorem C9_operator_messages_omitted_witness :
    (check_user_messages 7 [(1, (100, "d", "t0"))] 1
        (.ok [⟨103, 7, "a", "t3"⟩, ⟨102, 5, "b", "t2"⟩, ⟨101, 7, "c", "t1"⟩,
              ⟨100, 5, "d", "t0"⟩, ⟨99, 5, "e", "t9"⟩]) =
      (((MessagePoller.collectNew 100
            [⟨103, 7, "a", "t3"⟩, ⟨102, 5, "b", "t2"⟩, ⟨101, 7, "c", "t1"⟩,
             ⟨100, 5, "d", "t0"⟩, ⟨99, 5, "e", "t9"⟩]).filter
          (fun x => x.fromUserId != 7)).reverse,
       insert [(1, (100, "d", "t0"))] 1 (103, "a", "t3"))) ∧
    ∀ x ∈ (check_user_messages 7 [(1, (100, "d", "t0"))] 1
        (.ok [⟨103, 7, "a", "t3"⟩, ⟨102, 5, "b", "t2"⟩, ⟨101, 7, "c", "t1"⟩,
              ⟨100, 5, "d", "t0"⟩, ⟨99, 5, "e", "t9"⟩])).1,
      x.fromUserId ≠ 7 :=
  C9_operator_messages_omitted 7 [(1, (100, "d", "t0"))] 1 100 "d" "t0"
    ⟨103, 7, "a", "t3"⟩
    [⟨102, 5, "b", "t2"⟩, ⟨101, 7, "c", "t1"⟩, ⟨100, 5, "d", "t0"⟩,
     ⟨99, 5, "e", "t9"⟩]
    rfl (by decide)

end MessagePollerFinal
